import Mathlib

/-!
Verification of the real-time market-data stream multiplexer of the
LiveStreamingData repository, against its natural-language specification.

The embedding is shallow: JavaScript numbers are modelled as rationals (ℚ)
where no NaN can arise, and as Option ℚ (with none standing for NaN) in the
wire-decoding layer where parse failures matter; JavaScript strings are
modelled as lists of code points (List ℕ); JS Maps and Sets keyed by strings
are modelled as functions out of the key type.  Every definition is
translated from the repository source (file and function named in its doc
comment).
-/

namespace LSD

/-- JS strings as lists of Unicode code points. -/
abbrev Str := List ℕ

/-- Code points of a Lean string literal, for concrete inputs. -/
def strOf (s : String) : Str := s.data.map Char.toNat

/-- One character of String.prototype.toLowerCase, ASCII range
(the repository only handles ASCII symbols such as BTCUSDT). -/
def jsCharLower (c : ℕ) : ℕ := if 65 ≤ c ∧ c ≤ 90 then c + 32 else c

/-- One character of String.prototype.toUpperCase, ASCII range. -/
def jsCharUpper (c : ℕ) : ℕ := if 97 ≤ c ∧ c ≤ 122 then c - 32 else c

/-- String.prototype.toLowerCase. -/
def jsLower (s : Str) : Str := s.map jsCharLower

/-- String.prototype.toUpperCase. -/
def jsUpper (s : Str) : Str := s.map jsCharUpper

/-- JS logical-or on two (non-NaN) numbers: 0 is the only falsy value. -/
def jsOr (x d : ℚ) : ℚ := if x = 0 then d else x

/-- One OHLCV bar, the CandlestickData record of src/types
(field opn is the source field named open, a Lean keyword). -/
structure Candle where
  timestamp : ℚ
  opn : ℚ
  high : ℚ
  low : ℚ
  close : ℚ
  volume : ℚ
deriving DecidableEq

/-- The candle pushed by updateData's new-candle branch
(src/unnamed/part_011 lines 59-66): each OHLC field falls back to the
tick's close when falsy, volume falls back to 0. -/
def mkNewCandle (newCandle : Candle) : Candle :=
  { timestamp := newCandle.timestamp
    opn := jsOr newCandle.opn newCandle.close
    high := jsOr newCandle.high newCandle.close
    low := jsOr newCandle.low newCandle.close
    close := newCandle.close
    volume := jsOr newCandle.volume 0 }

/-- The in-place update of updateData's same-candle branch
(src/unnamed/part_011 lines 76-83).  Math.max(a,b,c) is max (max a b) c.
The source writes Math.min(low, close, newCandle.low || Infinity); since
min with +Infinity is the identity, the low: field is the two-argument
minimum when the tick's low is 0 (falsy) and the three-argument minimum
otherwise. -/
def mergeCandle (currentCandle newCandle : Candle) : Candle :=
  { timestamp := currentCandle.timestamp
    opn := currentCandle.opn
    high := max (max currentCandle.high newCandle.close) (jsOr newCandle.high 0)
    low := if newCandle.low = 0 then min currentCandle.low newCandle.close
           else min (min currentCandle.low newCandle.close) newCandle.low
    close := newCandle.close
    volume := max currentCandle.volume (jsOr newCandle.volume 0) }

/-- The retention splice of src/unnamed/part_011 lines 70-72:
if (updatedData.length > 200) updatedData.splice(0, updatedData.length - 200). -/
def trim200 (l : List Candle) : List Candle :=
  if 200 < l.length then l.drop (l.length - 200) else l

/-- The Candle Aggregator: updateData of src/unnamed/part_011 lines 38-92.
An incoming tick starts the series when it is empty, is appended as a new
candle when its timestamp exceeds the last candle's timestamp by more than
the 500 ms buffer, and otherwise mutates the last candle in place. -/
def updateData : List Candle → Candle → List Candle
  | [], newCandle => [newCandle]
  | p :: ps, newCandle =>
    if ((p :: ps).getLast (List.cons_ne_nil p ps)).timestamp + 500 < newCandle.timestamp then
      trim200 ((p :: ps) ++ [mkNewCandle newCandle])
    else
      (p :: ps).dropLast ++ [mergeCandle ((p :: ps).getLast (List.cons_ne_nil p ps)) newCandle]

/-- Feeding a whole sequence of ticks to the aggregator, starting from the
empty series. -/
def applyTicks (ticks : List Candle) : List Candle :=
  ticks.foldl updateData []

/-- getIntervalMs of src/unnamed/part_011 lines 23-35: interval-string to
milliseconds lookup; a missing key yields the fallback 60000. -/
def intervalMap : List (Str × ℚ) :=
  [(strOf "1s", 1000), (strOf "5s", 5000), (strOf "1m", 60000),
   (strOf "5m", 300000), (strOf "15m", 900000), (strOf "1h", 3600000),
   (strOf "4h", 14400000), (strOf "1d", 86400000)]

/-- getIntervalMs of src/unnamed/part_011: intervalMap[interval] || 60000
(every present value is truthy, so only an absent key takes the fallback). -/
def getIntervalMs (interval : Str) : ℚ :=
  (intervalMap.lookup interval).getD 60000

/-- The bucket-start computation of createBinanceCandle
(src/unnamed/part_011 lines 100-129): Math.floor(now / intervalMs) * intervalMs;
every case of the switch is this expression at its own interval length. -/
def bucketStart (eventTime intervalMs : ℚ) : ℚ :=
  ⌊eventTime / intervalMs⌋ * intervalMs

/-- The OHLC shape invariant the specification states for every candle:
low ≤ min(open, close) and max(open, close) ≤ high. -/
def CandleWF (c : Candle) : Prop :=
  c.low ≤ min c.opn c.close ∧ max c.opn c.close ≤ c.high

/-- A well-formed incoming tick: its OHLC shape holds and its low is
strictly positive (real exchange prices are positive; 0 is JS-falsy and
triggers the aggregator's || fallbacks). -/
def TickWF (t : Candle) : Prop := 0 < t.low ∧ CandleWF t

lemma jsOr_of_ne (x d : ℚ) (h : x ≠ 0) : jsOr x d = x := if_neg h

lemma mem_of_mem_trim200 {c : Candle} {l : List Candle} (h : c ∈ trim200 l) : c ∈ l := by
  unfold trim200 at h
  split_ifs at h with h2
  · exact List.drop_subset _ _ h
  · exact h

lemma dropLast_trim200_concat (xs : List Candle) (a : Candle) :
    (trim200 (xs ++ [a])).dropLast ⊆ xs := by
  unfold trim200
  split_ifs with h
  · rw [List.drop_append_eq_append_drop]
    have hlen : (xs ++ [a]).length - 200 ≤ xs.length := by
      simp only [List.length_append, List.length_singleton] at h ⊢; omega
    have hz : (xs ++ [a]).length - 200 - xs.length = 0 := by omega
    rw [hz, List.drop_zero, List.dropLast_concat]
    exact List.drop_subset _ _
  · rw [List.dropLast_concat]
    exact fun x hx => hx

lemma updateData_wf (prevData : List Candle) (t : Candle)
    (hprev : ∀ c ∈ prevData, CandleWF c) (ht : TickWF t) :
    ∀ c ∈ updateData prevData t, CandleWF c := by
  obtain ⟨hlow, hwf⟩ := ht
  have hopn : 0 < t.opn := lt_of_lt_of_le hlow (le_trans hwf.1 (min_le_left _ _))
  have hclose : 0 < t.close := lt_of_lt_of_le hlow (le_trans hwf.1 (min_le_right _ _))
  have hhigh : 0 < t.high := lt_of_lt_of_le hopn (le_trans (le_max_left _ _) hwf.2)
  cases prevData with
  | nil =>
    intro c hc
    simp only [updateData, List.mem_singleton] at hc
    subst hc
    exact hwf
  | cons p ps =>
    intro c hc
    simp only [updateData] at hc
    split_ifs at hc with hnew
    · rcases List.mem_append.mp (mem_of_mem_trim200 hc) with hin | hmk
      · exact hprev c hin
      · have he : c = mkNewCandle t := by simpa using hmk
        subst he
        have e : mkNewCandle t =
            ⟨t.timestamp, t.opn, t.high, t.low, t.close, jsOr t.volume 0⟩ := by
          simp [mkNewCandle, jsOr_of_ne _ _ (ne_of_gt hopn),
            jsOr_of_ne _ _ (ne_of_gt hhigh), jsOr_of_ne _ _ (ne_of_gt hlow)]
        rw [e]
        exact hwf
    · rcases List.mem_append.mp hc with hin | hmerge
      · exact hprev c ((List.dropLast_sublist _).subset hin)
      · have he : c = mergeCandle ((p :: ps).getLast (List.cons_ne_nil p ps)) t := by
          simpa using hmerge
        subst he
        have hLwf := hprev _ (List.getLast_mem (List.cons_ne_nil p ps))
        set L := (p :: ps).getLast (List.cons_ne_nil p ps) with hLdef
        constructor
        · simp only [mergeCandle, if_neg (ne_of_gt hlow)]
          apply le_min
          · calc min (min L.low t.close) t.low ≤ min L.low t.close := min_le_left _ _
              _ ≤ L.low := min_le_left _ _
              _ ≤ min L.opn L.close := hLwf.1
              _ ≤ L.opn := min_le_left _ _
          · calc min (min L.low t.close) t.low ≤ min L.low t.close := min_le_left _ _
              _ ≤ t.close := min_le_right _ _
        · simp only [mergeCandle]
          apply max_le
          · calc L.opn ≤ max L.opn L.close := le_max_left _ _
              _ ≤ L.high := hLwf.2
              _ ≤ max L.high t.close := le_max_left _ _
              _ ≤ max (max L.high t.close) (jsOr t.high 0) := le_max_left _ _
          · calc t.close ≤ max L.high t.close := le_max_right _ _
              _ ≤ max (max L.high t.close) (jsOr t.high 0) := le_max_left _ _

lemma updateData_ts (prevData : List Candle) (t : Candle) :
    ∀ c ∈ updateData prevData t,
      c.timestamp ∈ prevData.map Candle.timestamp ∨ c.timestamp = t.timestamp := by
  cases prevData with
  | nil =>
    intro c hc
    simp only [updateData, List.mem_singleton] at hc
    subst hc
    exact Or.inr rfl
  | cons p ps =>
    intro c hc
    simp only [updateData] at hc
    split_ifs at hc with hnew
    · rcases List.mem_append.mp (mem_of_mem_trim200 hc) with hin | hmk
      · exact Or.inl (List.mem_map_of_mem _ hin)
      · have he : c = mkNewCandle t := by simpa using hmk
        subst he
        exact Or.inr rfl
    · rcases List.mem_append.mp hc with hin | hmerge
      · exact Or.inl (List.mem_map_of_mem _ ((List.dropLast_sublist _).subset hin))
      · have he : c = mergeCandle ((p :: ps).getLast (List.cons_ne_nil p ps)) t := by
          simpa using hmerge
        subst he
        refine Or.inl ?_
        show ((p :: ps).getLast (List.cons_ne_nil p ps)).timestamp ∈ _
        exact List.mem_map_of_mem _ (List.getLast_mem (List.cons_ne_nil p ps))

lemma applyTicks_aux : ∀ (ticks s : List Candle),
    (∀ c ∈ s, CandleWF c) → (∀ t ∈ ticks, TickWF t) →
    ∀ c ∈ List.foldl updateData s ticks,
      CandleWF c ∧
        (c.timestamp ∈ s.map Candle.timestamp ∨
          c.timestamp ∈ ticks.map Candle.timestamp) := by
  intro ticks
  induction ticks with
  | nil =>
    intro s hs _ c hc
    rw [List.foldl_nil] at hc
    exact ⟨hs c hc, Or.inl (List.mem_map_of_mem _ hc)⟩
  | cons t rest ih =>
    intro s hs hticks c hc
    rw [List.foldl_cons] at hc
    have ht : TickWF t := hticks t (List.mem_cons_self t rest)
    have hs2 : ∀ c2 ∈ updateData s t, CandleWF c2 := updateData_wf s t hs ht
    have hrest : ∀ t2 ∈ rest, TickWF t2 := fun t2 h2 => hticks t2 (List.mem_cons_of_mem _ h2)
    obtain ⟨hwf, hts⟩ := ih (updateData s t) hs2 hrest c hc
    refine ⟨hwf, ?_⟩
    rcases hts with hmem | hmem
    · rw [List.mem_map] at hmem
      obtain ⟨c2, hc2, he⟩ := hmem
      rcases updateData_ts s t c2 hc2 with h1 | h2
      · exact Or.inl (he ▸ h1)
      · refine Or.inr ?_
        rw [← he, h2]
        simp
    · exact Or.inr (by simp [hmem])

/-- The trade-synthesized candle for a trade at event time 60200 with price
5 and quantity 1 on a 1-minute subscription (websocketManager.ts lines
518-525 build exactly this shape). -/
def tradeTick1m : Candle := ⟨60200, 5, 5, 5, 5, 1⟩

/-- C2: the claim is FALSE as stated.  A single well-formed trade tick at
event time 60200 on a 1-minute subscription yields a candle whose
timestamp is 60200, not floor(60200/60000)*60000 = 60000: updateData never
recomputes bucket starts, it stores the tick's own timestamp. -/
theorem C2_counterexample :
    applyTicks [tradeTick1m] = [tradeTick1m] ∧ TickWF tradeTick1m ∧
    tradeTick1m.timestamp ≠
      bucketStart tradeTick1m.timestamp (getIntervalMs (strOf "1m")) := by
  refine ⟨by norm_num [applyTicks, updateData],
    by norm_num [TickWF, CandleWF, tradeTick1m], ?_⟩
  have h : getIntervalMs (strOf "1m") = 60000 := by decide
  rw [h]
  norm_num [bucketStart, tradeTick1m]

/-- C2 (amended): for every sequence of well-formed ticks (OHLC shape
holds, prices positive), every candle held in the aggregator's series
satisfies low ≤ min(open, close) ≤ max(open, close) ≤ high, and its
timestamp is the timestamp carried verbatim by one of the ticks (the one
that opened it) - it is not recomputed as floor(eventTime/intervalMs)*intervalMs. -/
theorem C2_bucket_invariant_amended : ∀ (ticks : List Candle),
    (∀ t ∈ ticks, TickWF t) →
    ∀ c ∈ applyTicks ticks,
      (c.low ≤ min c.opn c.close ∧ max c.opn c.close ≤ c.high) ∧
      c.timestamp ∈ ticks.map Candle.timestamp := by
  intro ticks ht c hc
  obtain ⟨hwf, hts⟩ := applyTicks_aux ticks [] (by simp) ht c hc
  refine ⟨hwf, ?_⟩
  rcases hts with h | h
  · simp at h
  · exact h

/-- The two-tick input used to witness C2's amended theorem. -/
def ticksW : List Candle := [⟨60000, 10, 12, 9, 11, 2⟩, ⟨60100, 11, 11, 11, 11, 1⟩]

/-- Witness: C2's amended theorem evaluated on a concrete two-tick run. -/
theorem C2_bucket_invariant_amended_witness :
    ((⟨60000, 10, 12, 9, 11, 2⟩ : Candle).low ≤
        min (⟨60000, 10, 12, 9, 11, 2⟩ : Candle).opn (⟨60000, 10, 12, 9, 11, 2⟩ : Candle).close ∧
      max (⟨60000, 10, 12, 9, 11, 2⟩ : Candle).opn (⟨60000, 10, 12, 9, 11, 2⟩ : Candle).close ≤
        (⟨60000, 10, 12, 9, 11, 2⟩ : Candle).high) ∧
    (⟨60000, 10, 12, 9, 11, 2⟩ : Candle).timestamp ∈ ticksW.map Candle.timestamp :=
  C2_bucket_invariant_amended ticksW
    (by norm_num [ticksW, TickWF, CandleWF, List.forall_mem_cons])
    _ (by norm_num [applyTicks, updateData, ticksW, mergeCandle, jsOr, List.getLast])

/-- A candle that opened late in the first 1-minute bucket (timestamp
59900, as a trade-seeded candle gets the raw trade time). -/
def staleCandle : Candle := ⟨59900, 100, 100, 100, 100, 1⟩

/-- A tick in the NEXT 1-minute bucket (60000 ≤ 60200), but only 300 ms
after the current candle's timestamp. -/
def nextBucketTick : Candle := ⟨60200, 101, 101, 101, 101, 1⟩

/-- C1: the claim is FALSE as stated.  The tick's bucket start
floor(60200/60000)*60000 = 60000 exceeds the current candle's periodStart
(59900, and also exceeds the current candle's own bucket start 0), yet
updateData does NOT append a new candle: its test is the raw 500 ms
timestamp buffer (60200 is not greater than 59900 + 500), so it mutates the
previously open candle in place instead (its high and close become 101). -/
theorem C1_counterexample :
    staleCandle.timestamp <
      bucketStart nextBucketTick.timestamp (getIntervalMs (strOf "1m")) ∧
    bucketStart staleCandle.timestamp (getIntervalMs (strOf "1m")) <
      bucketStart nextBucketTick.timestamp (getIntervalMs (strOf "1m")) ∧
    updateData [staleCandle] nextBucketTick = [⟨59900, 100, 101, 100, 101, 1⟩] ∧
    (updateData [staleCandle] nextBucketTick).length = 1 := by
  have h : getIntervalMs (strOf "1m") = 60000 := by decide
  rw [h]
  refine ⟨by norm_num [bucketStart, staleCandle, nextBucketTick],
    by norm_num [bucketStart, staleCandle, nextBucketTick], ?_, ?_⟩
  · norm_num [updateData, staleCandle, nextBucketTick, mergeCandle, jsOr, List.getLast]
  · norm_num [updateData, staleCandle, nextBucketTick, mergeCandle, jsOr, List.getLast]

/-- C1 (amended): a tick whose timestamp exceeds the current candle's
timestamp by more than the 500 ms buffer always produces a brand-new candle
appended to the series (trimmed to the most recent 200); the appended
candle's open/high/low equal the tick's corresponding fields with a
fallback to the tick's close when zero, so for a trade-synthesized tick
(open = high = low = close = price) all four equal the trade price; and
archived candles are never mutated: every candle other than the last one in
the result is an unchanged member of the input series. -/
theorem C1_new_bar_amended :
    (∀ (p : Candle) (ps : List Candle) (t : Candle),
      ((p :: ps).getLast (List.cons_ne_nil p ps)).timestamp + 500 < t.timestamp →
      updateData (p :: ps) t = trim200 ((p :: ps) ++ [mkNewCandle t])) ∧
    (∀ (ts p v : ℚ),
      (mkNewCandle ⟨ts, p, p, p, p, v⟩).opn = p ∧
      (mkNewCandle ⟨ts, p, p, p, p, v⟩).high = p ∧
      (mkNewCandle ⟨ts, p, p, p, p, v⟩).low = p ∧
      (mkNewCandle ⟨ts, p, p, p, p, v⟩).close = p) ∧
    (∀ (prevData : List Candle) (t : Candle),
      ∀ c ∈ (updateData prevData t).dropLast, c ∈ prevData) := by
  refine ⟨?_, ?_, ?_⟩
  · intro p ps t h
    simp only [updateData, if_pos h]
  · intro ts p v
    refine ⟨?_, ?_, ?_, rfl⟩ <;> simp [mkNewCandle, jsOr]
  · intro prevData t c hc
    cases prevData with
    | nil => simp [updateData] at hc
    | cons p ps =>
      simp only [updateData] at hc
      split_ifs at hc with hnew
      · exact dropLast_trim200_concat _ _ hc
      · rw [List.dropLast_concat] at hc
        exact (List.dropLast_sublist _).subset hc

/-- A tick more than 500 ms after staleCandle, for the C1 witness. -/
def farTick : Candle := ⟨61000, 101, 102, 99, 101, 3⟩

/-- Witness: C1's amended theorem evaluated on concrete inputs. -/
theorem C1_new_bar_amended_witness :
    updateData [staleCandle] farTick = trim200 ([staleCandle] ++ [mkNewCandle farTick]) ∧
    (mkNewCandle ⟨61000, 7, 7, 7, 7, 2⟩).opn = 7 ∧
    staleCandle ∈ [staleCandle, nextBucketTick] := by
  refine ⟨?_, (C1_new_bar_amended.2.1 61000 7 2).1, ?_⟩
  · exact C1_new_bar_amended.1 staleCandle [] farTick
      (by norm_num [staleCandle, farTick, List.getLast])
  · have h : staleCandle ∈ (updateData [staleCandle, nextBucketTick] farTick).dropLast := by
      norm_num [updateData, staleCandle, nextBucketTick, farTick, trim200,
        mkNewCandle, jsOr, List.getLast]
    exact C1_new_bar_amended.2.2 [staleCandle, nextBucketTick] farTick staleCandle h

/-- The open candle of the current 1-minute bucket with accumulated volume 10. -/
def openCandleVol : Candle := ⟨60000, 100, 100, 100, 100, 10⟩

/-- A trade tick in the same bucket (and within the 500 ms buffer) whose
trade quantity is 4. -/
def sameBucketTrade : Candle := ⟨60300, 101, 101, 101, 101, 4⟩

/-- C3: the claim is FALSE as stated.  A trade tick with volume 4 applied
to the current candle (volume 10) in the same bucket leaves volume at
max(10, 4) = 10: updateData applies the kline snapshot policy
Math.max(currentCandle.volume, newCandle.volume || 0) to every tick,
trade-sourced ones included, so trade volumes are never summed (10 + 4 = 14
is not produced). -/
theorem C3_counterexample :
    bucketStart sameBucketTrade.timestamp (getIntervalMs (strOf "1m")) =
      openCandleVol.timestamp ∧
    updateData [openCandleVol] sameBucketTrade = [⟨60000, 100, 101, 100, 101, 10⟩] ∧
    (10 : ℚ) = max openCandleVol.volume sameBucketTrade.volume ∧
    (10 : ℚ) ≠ openCandleVol.volume + sameBucketTrade.volume := by
  have h : getIntervalMs (strOf "1m") = 60000 := by decide
  rw [h]
  refine ⟨by norm_num [bucketStart, sameBucketTrade, openCandleVol], ?_,
    by norm_num [openCandleVol, sameBucketTrade],
    by norm_num [openCandleVol, sameBucketTrade]⟩
  norm_num [updateData, openCandleVol, sameBucketTrade, mergeCandle, jsOr, List.getLast]

/-- C3 (amended): within one bucket (a tick no more than 500 ms past the
current candle's timestamp) the aggregator updates the last candle in
place, and the updated volume is max(current volume, tick volume || 0) -
the kline snapshot policy - for every tick source, so trade-fed updates do
NOT sum volumes. -/
theorem C3_volume_policy_amended :
    (∀ (p : Candle) (ps : List Candle) (t : Candle),
      ¬((p :: ps).getLast (List.cons_ne_nil p ps)).timestamp + 500 < t.timestamp →
      updateData (p :: ps) t =
        (p :: ps).dropLast ++
          [mergeCandle ((p :: ps).getLast (List.cons_ne_nil p ps)) t]) ∧
    (∀ (cur t : Candle), (mergeCandle cur t).volume = max cur.volume (jsOr t.volume 0)) := by
  refine ⟨?_, fun cur t => rfl⟩
  intro p ps t h
  simp only [updateData, if_neg h]

/-- Witness: C3's amended theorem evaluated on concrete inputs. -/
theorem C3_volume_policy_amended_witness :
    updateData [openCandleVol] sameBucketTrade =
      [openCandleVol].dropLast ++
        [mergeCandle ([openCandleVol].getLast (List.cons_ne_nil openCandleVol [])) sameBucketTrade] ∧
    (mergeCandle openCandleVol sameBucketTrade).volume =
      max openCandleVol.volume (jsOr sameBucketTrade.volume 0) := by
  refine ⟨?_, C3_volume_policy_amended.2 openCandleVol sameBucketTrade⟩
  exact C3_volume_policy_amended.1 openCandleVol [] sameBucketTrade
    (by norm_num [openCandleVol, sameBucketTrade, List.getLast])

/-- calculateBackoffDelay of src/unnamed/part_012 lines 112-120:
min(baseDelay * 2^attempt, maxDelay) + Math.random() * 1000, with the
Math.random() draw passed explicitly as r ∈ [0, 1). -/
def calculateBackoffDelay (attempt : ℕ) (baseDelay maxDelay r : ℚ) : ℚ :=
  min (baseDelay * 2 ^ attempt) maxDelay + r * 1000

/-- C6 (confirmed): for every attempt k and nonnegative base, with the
random draw r ∈ [0, 1), the computed delay is exactly
min(base * 2^k, cap) plus a jitter r * 1000 ∈ [0, 1000); it is therefore at
most cap + 1000, and the pre-jitter component min(base * 2^k, cap) is
monotonically non-decreasing in k up to the cap. -/
theorem C6_backoff_bound : ∀ (k : ℕ) (base cap r : ℚ),
    0 ≤ base → 0 ≤ r → r < 1 →
    calculateBackoffDelay k base cap r = min (base * 2 ^ k) cap + r * 1000 ∧
    0 ≤ r * 1000 ∧ r * 1000 < 1000 ∧
    calculateBackoffDelay k base cap r ≤ cap + 1000 ∧
    min (base * 2 ^ k) cap ≤ min (base * 2 ^ (k + 1)) cap := by
  intro k base cap r hbase hr0 hr1
  have hj0 : 0 ≤ r * 1000 := by positivity
  have hj1 : r * 1000 < 1000 := by nlinarith
  refine ⟨rfl, hj0, hj1, ?_, ?_⟩
  · have h1 : min (base * 2 ^ k) cap ≤ cap := min_le_right _ _
    unfold calculateBackoffDelay
    linarith
  · apply min_le_min _ (le_refl cap)
    apply mul_le_mul_of_nonneg_left _ hbase
    exact pow_le_pow_right₀ (by norm_num) (Nat.le_succ k)

/-- Witness: the backoff bound at attempt 0, base 1000, cap 30000, r = 1/2
(the repository's defaults for the helper, WS_CONFIG uses base 5000). -/
theorem C6_backoff_bound_witness :
    calculateBackoffDelay 0 1000 30000 (1 / 2) =
      min ((1000 : ℚ) * 2 ^ 0) 30000 + (1 / 2) * 1000 ∧
    (0 : ℚ) ≤ (1 / 2) * 1000 ∧ ((1 : ℚ) / 2) * 1000 < 1000 ∧
    calculateBackoffDelay 0 1000 30000 (1 / 2) ≤ 30000 + 1000 ∧
    min ((1000 : ℚ) * 2 ^ 0) 30000 ≤ min ((1000 : ℚ) * 2 ^ (0 + 1)) 30000 :=
  C6_backoff_bound 0 1000 30000 (1 / 2) (by norm_num) (by norm_num) (by norm_num)

/-- The query-parameter record of the GET /api/v3/klines request that
getKlines of src/src/services/binanceApi.ts lines 74-96 issues: symbol is
uppercased and the limit parameter is Math.min(limit, 1000). -/
structure KlinesRequest where
  path : Str
  symbol : Str
  interval : Str
  limit : ℚ

/-- CHART_CONFIG.DEFAULT_CANDLE_LIMIT of src/src/utils/constants.ts, the
default when getKlines is called without a limit. -/
def DEFAULT_CANDLE_LIMIT : ℚ := 200

/-- The request that getKlines(symbol, interval, limit) issues
(binanceApi.ts lines 81-88). -/
def getKlinesRequest (symbol interval : Str) (limit : ℚ) : KlinesRequest :=
  ⟨strOf "/api/v3/klines", jsUpper symbol, interval, min limit 1000⟩

/-- C5 (confirmed): the issued klines request carries limit parameter
min(limit, 1000); a limit of at most 1000 passes through unchanged, a
limit above 1000 (such as 2000) is clamped to exactly 1000. -/
theorem C5_limit_clamped : ∀ (s i : Str) (l : ℚ),
    (getKlinesRequest s i l).limit = min l 1000 ∧
    (l ≤ 1000 → (getKlinesRequest s i l).limit = l) ∧
    (1000 ≤ l → (getKlinesRequest s i l).limit = 1000) ∧
    (getKlinesRequest s i 2000).limit = 1000 := by
  intro s i l
  refine ⟨rfl, fun h => min_eq_left h, fun h => min_eq_right h, ?_⟩
  show min (2000 : ℚ) 1000 = 1000
  norm_num

/-- Witness: the clamp at the spec's scenario loadHistory("BTCUSDT","1h",2000)
and pass-through at limit 500. -/
theorem C5_limit_clamped_witness :
    (getKlinesRequest (strOf "BTCUSDT") (strOf "1h") 2000).limit = 1000 ∧
    (getKlinesRequest (strOf "BTCUSDT") (strOf "1h") 500).limit = 500 :=
  ⟨(C5_limit_clamped (strOf "BTCUSDT") (strOf "1h") 0).2.2.2,
   (C5_limit_clamped (strOf "BTCUSDT") (strOf "1h") 500).2.1 (by norm_num)⟩

/-- A JS string holding a numeric wire field, abstracted by its
parseFloat outcome: num q is a string that parseFloat reads as q, bad is a
string (such as "abc" or "") on which parseFloat returns NaN. -/
inductive WireStr
  | num (q : ℚ)
  | bad
deriving DecidableEq

/-- A JS number that may be NaN: none is NaN, some q is the ordinary
value q. -/
abbrev JSNum := Option ℚ

/-- The JS global parseFloat on a wire string. -/
def jsParseFloat : WireStr → JSNum
  | WireStr.num q => some q
  | WireStr.bad => none

/-- The string-or-number argument type of safeParseFloat. -/
inductive StrOrNum
  | str (s : WireStr)
  | num (n : JSNum)
deriving DecidableEq

/-- safeParseFloat of src/unnamed/part_012 lines 158-161:
parse a string with parseFloat (pass a number through), and replace a NaN
result by the fallback. -/
def safeParseFloat (value : StrOrNum) (fallback : ℚ) : ℚ :=
  match (match value with
         | StrOrNum.str s => jsParseFloat s
         | StrOrNum.num n => n) with
  | none => fallback
  | some q => q

/-- A CandlestickData record as produced by the wire decoders, whose
numeric fields may be NaN (timestamps come as JSON numbers and stay ℚ). -/
structure WireCandle where
  timestamp : ℚ
  opn : JSNum
  high : JSNum
  low : JSNum
  close : JSNum
  volume : JSNum
deriving DecidableEq

/-- The kline payload of a Binance kline event: symbol s, interval i, bar
open time t (a JSON number), and the string OHLCV fields o h l c v. -/
structure BinanceKlineMsg where
  s : Str
  i : Str
  t : ℚ
  o : WireStr
  h : WireStr
  l : WireStr
  c : WireStr
  v : WireStr
deriving DecidableEq

/-- transformKlineData of src/unnamed/part_012 lines 34-44: bare parseFloat
on every numeric string field - no fallback, so an unparseable field
becomes NaN. -/
def transformKlineData (message : BinanceKlineMsg) : WireCandle :=
  ⟨message.t, jsParseFloat message.o, jsParseFloat message.h,
   jsParseFloat message.l, jsParseFloat message.c, jsParseFloat message.v⟩

/-- A Binance trade event: symbol s, trade time T, price p and quantity q
as strings, trade id t, buyer-maker flag m. -/
structure BinanceTradeMsg where
  s : Str
  T : ℚ
  p : WireStr
  q : WireStr
  t : ℚ
  m : Bool
deriving DecidableEq

/-- A Binance 24hrTicker event (the fields the ticker branch of
handleMessage reads). -/
structure TickerMsg where
  s : Str
  E : ℚ
  c : WireStr
  p : WireStr
  P : WireStr
  o : WireStr
  h : WireStr
  l : WireStr
  v : WireStr
  q : WireStr
deriving DecidableEq

/-- A Binance 24hrMiniTicker event (the fields the miniTicker branch of
handleMessage reads). -/
structure MiniTickerMsg where
  s : Str
  E : ℚ
  c : WireStr
  P : WireStr
  o : WireStr
  h : WireStr
  l : WireStr
  v : WireStr
  q : WireStr
deriving DecidableEq

/-- A Binance depthUpdate event (only the symbol is needed for routing). -/
structure DepthMsg where
  s : Str
  E : ℚ
deriving DecidableEq

/-- The event object carried in the data field of a combined-streams
frame, as a tagged union on the discriminator field e; other covers a
missing or unrecognized discriminator, which matches none of
handleMessage's branches. -/
inductive EventData
  | kline (m : BinanceKlineMsg)
  | trade (m : BinanceTradeMsg)
  | ticker (m : TickerMsg)
  | miniTicker (m : MiniTickerMsg)
  | depthUpdate (m : DepthMsg)
  | other
deriving DecidableEq

/-- A parsed inbound JSON frame: either the combined-streams wrapper
stream/data (with the stream name and event), or any other JSON value, for
which the truthiness test data.stream && data.data fails (noWrapper). -/
inductive Envelope
  | noWrapper
  | wrapped (stream : Str) (ev : EventData)
deriving DecidableEq

/-- A raw inbound text frame: invalid is text that is not parseable JSON,
valid carries the parsed value. -/
inductive RawFrame
  | invalid
  | valid (v : Envelope)
deriving DecidableEq

/-- isValidJSON of src/unnamed/part_012 lines 125-132: JSON.parse inside
try/catch. -/
def isValidJSON : RawFrame → Bool
  | RawFrame.invalid => false
  | RawFrame.valid _ => true

/-- generateStreamName of src/unnamed/part_012 lines 151-153:
symbol.toLowerCase() + "@kline_" + interval. -/
def generateStreamName (symbol interval : Str) : Str :=
  jsLower symbol ++ strOf "@kline_" ++ interval

/-- The trade stream name symbol.toLowerCase() + "@trade" built inline in
subscribe/unsubscribe (websocketManager.ts lines 204 and 269). -/
def tradeStreamName (symbol : Str) : Str :=
  jsLower symbol ++ strOf "@trade"

/-- stream.split('@')[0].toUpperCase(), the per-stream symbol extraction of
subscribe's same-symbol cleanup (websocketManager.ts line 213). -/
def streamSymbolOf (stream : Str) : Str :=
  jsUpper (stream.takeWhile (fun c => c ≠ 64))

/-- The WebSocketManager's routing state: the messageHandlers,
tradeHandlers and orderBookHandlers Maps and the activeStreams Set, each
modelled as a function out of the key string (handlers are abstract and
identified by a number). -/
structure RegistryState where
  messageHandlers : Str → Option ℕ
  tradeHandlers : Str → Option ℕ
  orderBookHandlers : Str → Option ℕ
  activeStreams : Str → Bool

/-- Map.prototype.set. -/
def mapSet (m : Str → Option ℕ) (k : Str) (v : ℕ) : Str → Option ℕ :=
  fun x => if x = k then some v else m x

/-- Map.prototype.delete. -/
def mapDelete (m : Str → Option ℕ) (k : Str) : Str → Option ℕ :=
  fun x => if x = k then none else m x

/-- Set.prototype.add. -/
def setAdd (m : Str → Bool) (k : Str) : Str → Bool :=
  fun x => if x = k then true else m x

/-- Set.prototype.delete. -/
def setDelete (m : Str → Bool) (k : Str) : Str → Bool :=
  fun x => if x = k then false else m x

/-- A fresh WebSocketManager's routing state: empty maps, empty stream set. -/
def emptyRegistry : RegistryState :=
  ⟨fun _ => none, fun _ => none, fun _ => none, fun _ => false⟩

/-- subscribe of websocketManager.ts lines 202-250 (its map/set effects):
first the same-symbol cleanup deletes every active stream whose
split('@')[0].toUpperCase() equals the new symbol uppercased from both
messageHandlers and activeStreams, then the kline and trade stream names
are registered with the new handler. -/
def subscribe (st : RegistryState) (symbol interval : Str) (handler : ℕ) : RegistryState :=
  let klineStreamName := generateStreamName symbol interval
  let tradeStream := tradeStreamName symbol
  let stale := fun stream => st.activeStreams stream = true ∧ streamSymbolOf stream = jsUpper symbol
  { st with
    messageHandlers :=
      mapSet (mapSet (fun x => if stale x then none else st.messageHandlers x)
        klineStreamName handler) tradeStream handler
    activeStreams :=
      setAdd (setAdd (fun x => if stale x then false else st.activeStreams x)
        klineStreamName) tradeStream }

/-- unsubscribe of websocketManager.ts lines 267-293 (its map/set
effects): deletes exactly the symbol's kline stream name and trade stream
name from messageHandlers and activeStreams. -/
def unsubscribe (st : RegistryState) (symbol interval : Str) : RegistryState :=
  let klineStreamName := generateStreamName symbol interval
  let tradeStream := tradeStreamName symbol
  { st with
    messageHandlers := mapDelete (mapDelete st.messageHandlers klineStreamName) tradeStream
    activeStreams := setDelete (setDelete st.activeStreams klineStreamName) tradeStream }

/-- subscribeBulk of websocketManager.ts lines 336-361: for each symbol,
registers the handler under symbol.toLowerCase() + "@ticker" and
symbol.toLowerCase() + "@miniTicker" (capital T) and adds both streams. -/
def subscribeBulk (st : RegistryState) (symbols : List Str) (handler : ℕ) : RegistryState :=
  symbols.foldl (fun acc symbol =>
    let tickerStreamName := jsLower symbol ++ strOf "@ticker"
    let miniTickerStreamName := jsLower symbol ++ strOf "@miniTicker"
    { acc with
      messageHandlers :=
        mapSet (mapSet acc.messageHandlers tickerStreamName handler) miniTickerStreamName handler
      activeStreams :=
        setAdd (setAdd acc.activeStreams tickerStreamName) miniTickerStreamName }) st

/-- JS logical-or on possibly-NaN numbers (parseFloat(x) || d): NaN and 0
are falsy. -/
def jsNumOr (x d : JSNum) : JSNum :=
  match x with
  | none => d
  | some q => if q = 0 then d else some q

/-- What a consumer handler is invoked with. -/
inductive Payload
  | pCandle (c : WireCandle)
  | pTrade (id : ℚ)
  | pDepth (s : Str)
deriving DecidableEq

/-- One handler invocation: the handler's identity and its argument. -/
abbrev Invocation := ℕ × Payload

/-- The handler invocations one inbound frame causes, from handleMessage
of websocketManager.ts lines 465-644.  Branches in source order: the
isValidJSON guard drops unparseable text; a frame without the truthy
stream/data wrapper only logs "Unexpected message format"; then the
discriminator streamData.e selects the kline / trade / 24hrTicker /
24hrMiniTicker / depthUpdate branch, and an unknown or missing
discriminator falls through every branch.  Note the miniTicker branch's
lookup key (line 593) spells "@miniticker" in all-lowercase. -/
def handleMessageEvents (st : RegistryState) (raw : RawFrame) : List Invocation :=
  if isValidJSON raw = false then []
  else
    match raw with
    | RawFrame.invalid => []
    | RawFrame.valid Envelope.noWrapper => []
    | RawFrame.valid (Envelope.wrapped _ ev) =>
      match ev with
      | EventData.kline m =>
        let handlerStreamName := generateStreamName m.s m.i
        match st.messageHandlers handlerStreamName with
        | some handler =>
          [(handler, Payload.pCandle { transformKlineData m with timestamp := m.t })]
        | none => []
      | EventData.trade m =>
        let tradeStream := jsLower m.s ++ strOf "@trade"
        let klineInv : List Invocation :=
          match st.messageHandlers tradeStream with
          | some handler =>
            let tradePrice := jsParseFloat m.p
            let tradeVolume := jsParseFloat m.q
            [(handler, Payload.pCandle ⟨m.T, tradePrice, tradePrice, tradePrice, tradePrice, tradeVolume⟩)]
          | none => []
        let tradeInv : List Invocation :=
          match st.tradeHandlers m.s with
          | some handler => [(handler, Payload.pTrade m.t)]
          | none => []
        klineInv ++ tradeInv
      | EventData.ticker m =>
        let tickerStreamName := jsLower m.s ++ strOf "@ticker"
        match st.messageHandlers tickerStreamName with
        | some handler =>
          let currentPrice := jsParseFloat m.c
          [(handler, Payload.pCandle
            ⟨m.E, jsNumOr (jsParseFloat m.o) currentPrice,
              jsNumOr (jsParseFloat m.h) currentPrice,
              jsNumOr (jsParseFloat m.l) currentPrice,
              currentPrice, jsNumOr (jsParseFloat m.v) (some 0)⟩)]
        | none => []
      | EventData.miniTicker m =>
        let miniTickerStreamName := jsLower m.s ++ strOf "@miniticker"
        match st.messageHandlers miniTickerStreamName with
        | some handler =>
          let currentPrice := jsParseFloat m.c
          [(handler, Payload.pCandle
            ⟨m.E, jsNumOr (jsParseFloat m.o) currentPrice,
              jsNumOr (jsParseFloat m.h) currentPrice,
              jsNumOr (jsParseFloat m.l) currentPrice,
              currentPrice, jsNumOr (jsParseFloat m.v) (some 0)⟩)]
        | none => []
      | EventData.depthUpdate m =>
        match st.orderBookHandlers m.s with
        | some handler => [(handler, Payload.pDepth m.s)]
        | none => []
      | EventData.other => []

/-- handleMessage of websocketManager.ts lines 465-644.  Its body only
reads the routing maps - it contains no write to messageHandlers,
tradeHandlers, orderBookHandlers or activeStreams - and the whole body is
wrapped in try/catch, so no exception escapes; the model is the total
function returning the unchanged routing state together with the list of
handler invocations the frame causes. -/
def handleMessage (st : RegistryState) (raw : RawFrame) : RegistryState × List Invocation :=
  (st, handleMessageEvents st raw)

/-- A kline event for BTCUSDT 1m whose open field fails to parse. -/
def klineBadO : BinanceKlineMsg :=
  ⟨strOf "BTCUSDT", strOf "1m", 60000, WireStr.bad,
   WireStr.num 9, WireStr.num 1, WireStr.num 5, WireStr.num 2⟩

/-- A trade event for BTCUSDT whose price field fails to parse. -/
def tradeBadP : BinanceTradeMsg :=
  ⟨strOf "BTCUSDT", 60100, WireStr.bad, WireStr.num 2, 11, false⟩

/-- The routing state for the C4 evaluation: handler 7 on the kline stream
and handler 8 on the trade stream of BTCUSDT. -/
def stC4 : RegistryState :=
  { emptyRegistry with
    messageHandlers :=
      mapSet (mapSet emptyRegistry.messageHandlers (strOf "btcusdt@kline_1m") 7)
        (strOf "btcusdt@trade") 8 }

/-- C4: the code contradicts the claim.  safeParseFloat does implement the
documented fallback to 0, but transformKlineData and the trade branch of
handleMessage use bare parseFloat: a kline frame whose open field is
unparseable delivers a CandlestickData with open = NaN (modelled none) to
the consumer handler, and a trade frame with an unparseable price delivers
a candle whose four price fields are all NaN. -/
theorem C4_nan_propagation :
    (transformKlineData klineBadO).opn = none ∧
    safeParseFloat (StrOrNum.str WireStr.bad) 0 = 0 ∧
    (handleMessage stC4 (RawFrame.valid (Envelope.wrapped
        (strOf "btcusdt@kline_1m") (EventData.kline klineBadO)))).2 =
      [(7, Payload.pCandle ⟨60000, none, some 9, some 1, some 5, some 2⟩)] ∧
    (handleMessage stC4 (RawFrame.valid (Envelope.wrapped
        (strOf "btcusdt@trade") (EventData.trade tradeBadP)))).2 =
      [(8, Payload.pCandle ⟨60100, none, none, none, none, some 2⟩)] := by
  refine ⟨rfl, rfl, by decide, by decide⟩

/-- C9 (confirmed): a frame that is not valid JSON, or is valid JSON
without the truthy stream/data wrapper, or carries a missing/unknown event
discriminator, produces zero handler invocations; and handleMessage never
changes the routing state on any frame (its body only reads the maps, and
its try/catch means no exception escapes - the model is a total function). -/
theorem C9_malformed_dropped : ∀ (st : RegistryState),
    isValidJSON RawFrame.invalid = false ∧
    handleMessage st RawFrame.invalid = (st, []) ∧
    handleMessage st (RawFrame.valid Envelope.noWrapper) = (st, []) ∧
    (∀ sn : Str, handleMessage st (RawFrame.valid (Envelope.wrapped sn EventData.other)) = (st, [])) ∧
    (∀ raw : RawFrame, (handleMessage st raw).1 = st) := by
  intro st
  exact ⟨rfl, rfl, rfl, fun sn => rfl, fun raw => rfl⟩

/-- The symbol subscribeBulk registers in the C10 evaluation. -/
def symBTC : Str := strOf "BTCUSDT"

/-- The routing state after subscribeBulk(["BTCUSDT"], handler 7). -/
def stBulk : RegistryState := subscribeBulk emptyRegistry [symBTC] 7

/-- A 24hrMiniTicker event for BTCUSDT. -/
def miniMsgBTC : MiniTickerMsg :=
  ⟨symBTC, 1000, WireStr.num 5, WireStr.num 1, WireStr.num 4,
   WireStr.num 9, WireStr.num 3, WireStr.num 2, WireStr.num 6⟩

/-- A 24hrTicker event for BTCUSDT. -/
def tickerMsgBTC : TickerMsg :=
  ⟨symBTC, 1000, WireStr.num 5, WireStr.num 1, WireStr.num 1,
   WireStr.num 4, WireStr.num 9, WireStr.num 3, WireStr.num 2, WireStr.num 6⟩

/-- C10: the code contradicts the claim for the miniTicker half.
subscribeBulk stores the handler under "btcusdt@miniTicker" (capital T,
line 342) but the 24hrMiniTicker branch of handleMessage looks up
"btcusdt@miniticker" (all lowercase, line 593); the two keys differ, so a
24hrMiniTicker frame for a bulk-subscribed symbol invokes zero handlers
even though the handler is registered and the stream is active.  The
@ticker half does match: a 24hrTicker frame reaches handler 7. -/
theorem C10_miniTicker_key_mismatch :
    stBulk.messageHandlers (jsLower symBTC ++ strOf "@miniTicker") = some 7 ∧
    stBulk.activeStreams (jsLower symBTC ++ strOf "@miniTicker") = true ∧
    jsLower symBTC ++ strOf "@miniTicker" ≠ jsLower symBTC ++ strOf "@miniticker" ∧
    (handleMessage stBulk (RawFrame.valid (Envelope.wrapped
        (strOf "btcusdt@miniTicker") (EventData.miniTicker miniMsgBTC)))).2 = [] ∧
    ((handleMessage stBulk (RawFrame.valid (Envelope.wrapped
        (strOf "btcusdt@ticker") (EventData.ticker tickerMsgBTC)))).2).map Prod.fst = [7] := by
  refine ⟨by decide, by decide, by decide, by decide, by decide⟩

lemma jsCharUpper_jsCharLower (c : ℕ) : jsCharUpper (jsCharLower c) = jsCharUpper c := by
  unfold jsCharLower jsCharUpper
  split_ifs <;> omega

lemma jsUpper_jsLower : ∀ s : Str, jsUpper (jsLower s) = jsUpper s := by
  intro s
  induction s with
  | nil => rfl
  | cons a t ih =>
    simp only [jsUpper, jsLower, List.map_cons] at ih ⊢
    rw [jsCharUpper_jsCharLower, ih]

lemma at_notin_jsLower {s : Str} (h : (64:ℕ) ∉ s) : (64:ℕ) ∉ jsLower s := by
  intro hmem
  rw [jsLower, List.mem_map] at hmem
  obtain ⟨c, hc, he⟩ := hmem
  have hc64 : c = 64 := by
    unfold jsCharLower at he
    split_ifs at he <;> omega
  exact h (hc64 ▸ hc)

lemma append_at_inj : ∀ (xs ys as bs : List ℕ), (64:ℕ) ∉ xs → (64:ℕ) ∉ ys →
    xs ++ 64 :: as = ys ++ 64 :: bs → xs = ys := by
  intro xs
  induction xs with
  | nil =>
    intro ys as bs _ hy h
    cases ys with
    | nil => rfl
    | cons y yt =>
      simp only [List.nil_append, List.cons_append, List.cons.injEq] at h
      have hy64 : y = 64 := h.1.symm
      subst hy64
      exact absurd (List.mem_cons_self _ _) hy
  | cons x xt ih =>
    intro ys as bs hx hy h
    cases ys with
    | nil =>
      simp only [List.cons_append, List.nil_append, List.cons.injEq] at h
      have hx64 : x = 64 := h.1
      subst hx64
      exact absurd (List.mem_cons_self _ _) hx
    | cons y yt =>
      simp only [List.cons_append, List.cons.injEq] at h
      have hrec := ih yt as bs (fun hm => hx (List.mem_cons_of_mem _ hm))
        (fun hm => hy (List.mem_cons_of_mem _ hm)) h.2
      rw [h.1, hrec]

lemma takeWhile_append_at : ∀ (s rest : List ℕ), (64:ℕ) ∉ s →
    (s ++ 64 :: rest).takeWhile (fun c => c ≠ 64) = s := by
  intro s
  induction s with
  | nil =>
    intro rest _
    simp [List.takeWhile_cons]
  | cons a t ih =>
    intro rest h
    have ha : a ≠ 64 := fun he => h (he ▸ List.mem_cons_self _ _)
    simp only [List.cons_append, List.takeWhile_cons, decide_eq_true_eq]
    rw [if_pos ha, ih rest (fun hm => h (List.mem_cons_of_mem _ hm))]

lemma streamSymbolOf_topic (B suffix : Str) (hB : (64:ℕ) ∉ B) :
    streamSymbolOf (jsLower B ++ (64 :: suffix)) = jsUpper B := by
  unfold streamSymbolOf
  rw [takeWhile_append_at _ _ (at_notin_jsLower hB), jsUpper_jsLower]

lemma genName_eq (A i : Str) :
    generateStreamName A i = jsLower A ++ (64 :: (strOf "kline_" ++ i)) := by
  have h : strOf "@kline_" = 64 :: strOf "kline_" := by decide
  simp [generateStreamName, h, List.append_assoc]

lemma tradeName_eq (A : Str) : tradeStreamName A = jsLower A ++ (64 :: strOf "trade") := by
  have h : strOf "@trade" = 64 :: strOf "trade" := by decide
  simp [tradeStreamName, h]

/-- C8 (confirmed): for two symbols that contain no '@' (code point 64)
and are distinct case-insensitively (their toUpperCase forms differ, which
is plain distinctness for the canonical uppercase symbols the app uses),
unsubscribe(A, interval) and subscribe(A, interval, handler) leave every
topic of symbol B - any stream of the shape B.toLowerCase() + "@" + suffix -
untouched in both the active stream set and the handler map. -/
theorem C8_topic_isolation : ∀ (A B i suffix : Str) (handler : ℕ) (st : RegistryState),
    (64:ℕ) ∉ A → (64:ℕ) ∉ B → jsUpper A ≠ jsUpper B →
    ((unsubscribe st A i).activeStreams (jsLower B ++ (64 :: suffix)) =
        st.activeStreams (jsLower B ++ (64 :: suffix)) ∧
      (unsubscribe st A i).messageHandlers (jsLower B ++ (64 :: suffix)) =
        st.messageHandlers (jsLower B ++ (64 :: suffix))) ∧
    ((subscribe st A i handler).activeStreams (jsLower B ++ (64 :: suffix)) =
        st.activeStreams (jsLower B ++ (64 :: suffix)) ∧
      (subscribe st A i handler).messageHandlers (jsLower B ++ (64 :: suffix)) =
        st.messageHandlers (jsLower B ++ (64 :: suffix))) := by
  intro A B i suffix handler st hA hB hAB
  have hLA : (64:ℕ) ∉ jsLower A := at_notin_jsLower hA
  have hLB : (64:ℕ) ∉ jsLower B := at_notin_jsLower hB
  have hBA : jsLower B ≠ jsLower A := by
    intro he
    apply hAB
    rw [← jsUpper_jsLower A, ← jsUpper_jsLower B, he]
  have hK : jsLower B ++ (64 :: suffix) ≠ generateStreamName A i := by
    rw [genName_eq]
    intro he
    exact hBA (append_at_inj _ _ _ _ hLB hLA he)
  have hT : jsLower B ++ (64 :: suffix) ≠ tradeStreamName A := by
    rw [tradeName_eq]
    intro he
    exact hBA (append_at_inj _ _ _ _ hLB hLA he)
  have hStale : ¬(st.activeStreams (jsLower B ++ (64 :: suffix)) = true ∧
      streamSymbolOf (jsLower B ++ (64 :: suffix)) = jsUpper A) := by
    rintro ⟨-, h2⟩
    rw [streamSymbolOf_topic B suffix hB] at h2
    exact hAB h2.symm
  refine ⟨⟨?_, ?_⟩, ?_, ?_⟩
  · simp only [unsubscribe, setDelete]
    rw [if_neg hT, if_neg hK]
  · simp only [unsubscribe, mapDelete]
    rw [if_neg hT, if_neg hK]
  · simp only [subscribe, setAdd]
    rw [if_neg hT, if_neg hK, if_neg hStale]
  · simp only [subscribe, mapSet]
    rw [if_neg hT, if_neg hK, if_neg hStale]

/-- The registry state used to witness C8: ETHUSDT already subscribed. -/
def stW8 : RegistryState := subscribe emptyRegistry (strOf "ETHUSDT") (strOf "1m") 3

/-- Witness: topic isolation between BTCUSDT and ETHUSDT on a populated
registry. -/
theorem C8_topic_isolation_witness :
    ((unsubscribe stW8 (strOf "BTCUSDT") (strOf "1m")).activeStreams
        (jsLower (strOf "ETHUSDT") ++ (64 :: strOf "trade")) =
      stW8.activeStreams (jsLower (strOf "ETHUSDT") ++ (64 :: strOf "trade")) ∧
     (unsubscribe stW8 (strOf "BTCUSDT") (strOf "1m")).messageHandlers
        (jsLower (strOf "ETHUSDT") ++ (64 :: strOf "trade")) =
      stW8.messageHandlers (jsLower (strOf "ETHUSDT") ++ (64 :: strOf "trade"))) ∧
    ((subscribe stW8 (strOf "BTCUSDT") (strOf "1m") 9).activeStreams
        (jsLower (strOf "ETHUSDT") ++ (64 :: strOf "trade")) =
      stW8.activeStreams (jsLower (strOf "ETHUSDT") ++ (64 :: strOf "trade")) ∧
     (subscribe stW8 (strOf "BTCUSDT") (strOf "1m") 9).messageHandlers
        (jsLower (strOf "ETHUSDT") ++ (64 :: strOf "trade")) =
      stW8.messageHandlers (jsLower (strOf "ETHUSDT") ++ (64 :: strOf "trade"))) :=
  C8_topic_isolation (strOf "BTCUSDT") (strOf "ETHUSDT") (strOf "1m") (strOf "trade") 9 stW8
    (by decide) (by decide) (by decide)

/-- WS_CONFIG.MAX_RECONNECT_ATTEMPTS of src/src/utils/constants.ts. -/
def MAX_RECONNECT_ATTEMPTS : ℕ := 5

/-- WS_CONFIG.INITIAL_RECONNECT_DELAY of src/src/utils/constants.ts. -/
def INITIAL_RECONNECT_DELAY : ℚ := 5000

/-- WS_CONFIG.MAX_RECONNECT_DELAY of src/src/utils/constants.ts. -/
def MAX_RECONNECT_DELAY : ℚ := 30000

/-- The connection status values passed to connection-status listeners. -/
inductive ConnStatus
  | connecting
  | connected
  | disconnected
  | error
deriving DecidableEq

/-- The reconnection bookkeeping of WebSocketManager: the
reconnectAttempts counter and the isReconnecting / connectionInProgress
flags. -/
structure ConnState where
  reconnectAttempts : ℕ
  isReconnecting : Bool
  connectionInProgress : Bool
deriving DecidableEq

/-- What one call to attemptReconnection does: the updated bookkeeping,
the status notification it sends (if any), and the delay of the
reconnection timer it schedules (if any). -/
structure ReconResult where
  state : ConnState
  notified : Option ConnStatus
  scheduledDelay : Option ℚ
deriving DecidableEq

/-- attemptReconnection of websocketManager.ts lines 671-702 (the random
jitter draw r passed explicitly).  At or beyond the maximum attempt count
it notifies listeners with error and returns without scheduling anything;
while a reconnection or connection is already in flight it returns without
doing anything; otherwise it sets isReconnecting, increments the counter,
and schedules a connect after calculateBackoffDelay(reconnectAttempts - 1,
INITIAL_RECONNECT_DELAY, MAX_RECONNECT_DELAY). -/
def attemptReconnection (s : ConnState) (r : ℚ) : ReconResult :=
  if MAX_RECONNECT_ATTEMPTS ≤ s.reconnectAttempts then
    ⟨s, some ConnStatus.error, none⟩
  else if s.isReconnecting || s.connectionInProgress then
    ⟨s, none, none⟩
  else
    ⟨⟨s.reconnectAttempts + 1, true, s.connectionInProgress⟩, none,
      some (calculateBackoffDelay s.reconnectAttempts INITIAL_RECONNECT_DELAY
        MAX_RECONNECT_DELAY r)⟩

/-- handleOpen of websocketManager.ts lines 433-440: on a successful
socket open the reconnect-attempt counter is reset to 0, isReconnecting is
cleared, and listeners are notified with connected. -/
def handleOpen (s : ConnState) : ConnState × ConnStatus :=
  (⟨0, false, s.connectionInProgress⟩, ConnStatus.connected)

/-- One worst-case reconnection cycle: attemptReconnection runs, and if it
scheduled a timer, the timer fires (clearing isReconnecting, line 695) and
the connect() attempt fails (clearing connectionInProgress before the
error handler runs, line 127), after which the driver may be invoked
again.  The Bool records whether a connection attempt was scheduled. -/
def reconnectCycle (s : ConnState) (r : ℚ) : ConnState × Bool :=
  let res := attemptReconnection s r
  if res.scheduledDelay.isSome then
    (⟨res.state.reconnectAttempts, false, false⟩, true)
  else
    (res.state, false)

/-- The number of connection attempts scheduled across a run of
reconnection cycles (one jitter draw per cycle), with every connect
failing and no successful open in between. -/
def totalScheduled : ConnState → List ℚ → ℕ
  | _, [] => 0
  | s, r :: rest =>
    let c := reconnectCycle s r
    (if c.2 then 1 else 0) + totalScheduled c.1 rest

lemma totalScheduled_le : ∀ (rs : List ℚ) (s : ConnState),
    totalScheduled s rs + min s.reconnectAttempts MAX_RECONNECT_ATTEMPTS ≤
      MAX_RECONNECT_ATTEMPTS := by
  intro rs
  induction rs with
  | nil =>
    intro s
    simp only [totalScheduled, Nat.zero_add]
    exact min_le_right _ _
  | cons r rest ih =>
    intro s
    by_cases h1 : MAX_RECONNECT_ATTEMPTS ≤ s.reconnectAttempts
    · have hc : reconnectCycle s r = (s, false) := by
        simp [reconnectCycle, attemptReconnection, if_pos h1]
      simp only [totalScheduled, hc]
      simpa using ih s
    · by_cases h2 : (s.isReconnecting || s.connectionInProgress) = true
      · have hc : reconnectCycle s r = (s, false) := by
          simp [reconnectCycle, attemptReconnection, if_neg h1, h2]
        simp only [totalScheduled, hc]
        simpa using ih s
      · have hc : reconnectCycle s r = (⟨s.reconnectAttempts + 1, false, false⟩, true) := by
          simp [reconnectCycle, attemptReconnection, if_neg h1, h2]
        simp only [totalScheduled, hc]
        have ha : s.reconnectAttempts < MAX_RECONNECT_ATTEMPTS := Nat.lt_of_not_le h1
        have hrec := ih ⟨s.reconnectAttempts + 1, false, false⟩
        simp only [MAX_RECONNECT_ATTEMPTS] at ha hrec ⊢
        simp only [if_true, ite_true, eq_self_iff_true] at hrec ⊢
        omega

/-- C7 (confirmed): once the reconnect-attempt counter has reached
MAX_RECONNECT_ATTEMPTS (5), attemptReconnection notifies listeners with
error, leaves the state unchanged and schedules no connection attempt;
every successful open resets the counter to 0 (and notifies connected);
and across any run of reconnection cycles in which every connect fails and
no open succeeds, at most 5 - min(attempts, 5) further connection attempts
are ever scheduled - in particular at most 5 consecutive attempts from a
fresh counter. -/
theorem C7_reconnect_cap : ∀ (s : ConnState) (r : ℚ) (rs : List ℚ),
    (MAX_RECONNECT_ATTEMPTS ≤ s.reconnectAttempts →
      attemptReconnection s r = ⟨s, some ConnStatus.error, none⟩) ∧
    (handleOpen s).1.reconnectAttempts = 0 ∧
    (handleOpen s).2 = ConnStatus.connected ∧
    totalScheduled s rs + min s.reconnectAttempts MAX_RECONNECT_ATTEMPTS ≤
      MAX_RECONNECT_ATTEMPTS := by
  intro s r rs
  refine ⟨?_, rfl, rfl, totalScheduled_le rs s⟩
  intro h
  simp only [attemptReconnection, if_pos h]

/-- Witness: the reconnection cap evaluated at a saturated counter (5) and
a three-cycle run. -/
theorem C7_reconnect_cap_witness :
    attemptReconnection ⟨5, false, false⟩ 0 = ⟨⟨5, false, false⟩, some ConnStatus.error, none⟩ ∧
    (handleOpen ⟨5, false, false⟩).1.reconnectAttempts = 0 ∧
    totalScheduled ⟨5, false, false⟩ [0, 0, 0] +
      min (ConnState.reconnectAttempts ⟨5, false, false⟩) MAX_RECONNECT_ATTEMPTS ≤
      MAX_RECONNECT_ATTEMPTS := by
  have h := C7_reconnect_cap ⟨5, false, false⟩ 0 [0, 0, 0]
  exact ⟨h.1 (by decide), h.2.1, h.2.2.2⟩

end LSD
